import Mathlib

/-!
Shallow embedding of the AMM settlement core of `AqilJaafree/AMM-Demo`.

The repository's source under `src/` consists of the two Anchor instruction
handlers `programs/amm/src/contexts/deposit.rs` (`Deposit::deposit`) and
`programs/amm/src/contexts/swap.rs` (`Swap::swap`).  The curve engine they
call (`constant_product_curve::ConstantProduct`), the `Config` account and
the `AmmError` enum live outside `src/`, so those parts are modelled from
the spec (each such definition says so in its doc comment); the two
handlers themselves are embedded from the Rust source.

All machine integers (`u64` reserves and amounts, `u16` fee) are embedded
as `Nat`; overflow checks are explicit comparisons against `2 ^ 64`.
Side effects (SPL token CPIs) are embedded as an explicit list of
`Effect`s returned on success: in the Rust code every `require!` runs
before the first CPI, so a failing operation produces no effect, which the
embedding renders by returning `Except.error` carrying no effect list.
-/

set_option autoImplicit false
set_option linter.unusedVariables false

namespace AmmDemo

/-- Width bound of a `u64`: a value `v` fits iff `v < U64_MOD`. -/
def U64_MOD : Nat := 2 ^ 64

/-- Errors of the curve engine.  Modelled from the spec: the
`constant_product_curve` crate is not part of `src/`; §4.1 names
`Overflow`, `ZeroAmount` and `InsufficientLiquidity` as its failures. -/
inductive CurveError where
  | Overflow
  | ZeroAmount
  | InsufficientLiquidity
  deriving DecidableEq, Repr

/-- Program errors.  Modelled from the spec: `errors.rs` is not part of
`src/`.  The constructors `InvalidAmount`, `AMMLocked`,
`InsufficientBalance`, `InsufficientTokenX`, `InsufficientTokenY` are the
ones the two handlers in `src/` name explicitly (the spec's taxonomy in §7
calls them `InvalidAmount`, `PoolLocked`, `InsufficientLiquidity`,
`SlippageExceededX`, `SlippageExceededY`); `SlippageExceeded` is the
output-bound failure of §4.4 step 5, and `CurveErr e` is the image of a
curve error under the `From<CurveError> for AmmError` conversion used by
`Swap::swap`. -/
inductive AmmError where
  | InvalidAmount
  | AMMLocked
  | InsufficientBalance
  | InsufficientTokenX
  | InsufficientTokenY
  | SlippageExceeded
  | CurveErr (e : CurveError)
  deriving DecidableEq, Repr

/-- The pool configuration account.  Modelled from the spec (§3 Pool
State): `state.rs` is not part of `src/`; the handlers read only the
`locked` flag and the `fee` rate (basis points), so only those two fields
are embedded. -/
structure Config where
  locked : Bool
  fee : Nat
  deriving DecidableEq, Repr

/-- The snapshot of pool state an operation observes at entry: the config
account, the two vault balances (`vault_x.amount`, `vault_y.amount`) and
the lp mint supply (`lp_mint.supply`), per §3 observed atomically. -/
structure PoolState where
  config : Config
  vaultX : Nat
  vaultY : Nat
  lpSupply : Nat
  deriving DecidableEq, Repr

/-- The two pool assets (mints) X and Y. -/
inductive Asset where
  | X
  | Y
  deriving DecidableEq, Repr

/-- Who signs a transfer: the user (trader / lp provider) or the pool's
config PDA (the pool's signing authority). -/
inductive Signer where
  | user
  | pool
  deriving DecidableEq, Repr

/-- One side effect of an operation, embedding one CPI of the Rust code:
`toVault a s n` is `transfer_checked` of `n` units of asset `a` from the
user's token account into that asset's vault, authorized by `s`;
`fromVault a s n` is `transfer_checked` of `n` units of asset `a` out of
the vault to the user, authorized by `s`; `mintLp n` is `mint_to` of `n`
lp tokens to the user, authorized by the config PDA. -/
inductive Effect where
  | toVault (asset : Asset) (signedBy : Signer) (amount : Nat)
  | fromVault (asset : Asset) (signedBy : Signer) (amount : Nat)
  | mintLp (amount : Nat)
  deriving DecidableEq, Repr

/-- Token balances of the user and the vaults, plus the lp supply; the
state the `Effect`s act on. -/
structure Balances where
  vaultX : Nat
  vaultY : Nat
  userX : Nat
  userY : Nat
  userLp : Nat
  lpSupply : Nat
  deriving DecidableEq, Repr

/-- How one effect changes the balances (Nat subtraction stands in for the
token program's debit; every claim below uses it only where the source
account provably covers the amount or where no debit occurs). -/
def applyEffect (b : Balances) : Effect → Balances
  | .toVault .X _ n => { b with userX := b.userX - n, vaultX := b.vaultX + n }
  | .toVault .Y _ n => { b with userY := b.userY - n, vaultY := b.vaultY + n }
  | .fromVault .X _ n => { b with vaultX := b.vaultX - n, userX := b.userX + n }
  | .fromVault .Y _ n => { b with vaultY := b.vaultY - n, userY := b.userY + n }
  | .mintLp n => { b with userLp := b.userLp + n, lpSupply := b.lpSupply + n }

/-- Apply a list of effects in order. -/
def applyEffects (b : Balances) (es : List Effect) : Balances :=
  es.foldl applyEffect b

/-- Result of the curve's swap computation.  Modelled from the spec
(§4.1b): `swap_output(... ) -> { amount_in_net, amount_out, fee }`; in the
code's `SwapResult` the net deposited amount is the `deposit` field and
`amount_out` the `withdraw` field. -/
structure SwapOutput where
  amount_in_net : Nat
  amount_out : Nat
  fee : Nat
  deriving DecidableEq, Repr

/-- Curve engine swap computation.  Modelled from the spec: the
`constant_product_curve` crate is not part of `src/`.  Per §4.1b:
`fee = floor(amount_in * fee_rate / 10000)`,
`amount_in_net = amount_in - fee`; fails with `InsufficientLiquidity`
when a reserve is 0 on entry or the output would drain the pool, and with
`Overflow` when an intermediate product leaves the u64 range.  §4.1b
states the output both as
`reserve_out - floor(reserve_in * reserve_out / (reserve_in + net))` and
as the "equivalent" `floor(reserve_out * net / (reserve_in + net))`;
under integer division these differ (ceil vs floor of the same quotient),
and only the second matches the spec's own asserted test value
(§8: amount_out = 90 for reserves 1000/1000, fee 30 bps, amount_in 100)
and the pool-favoring rounding §9 and the invariant-growth post-condition
§4.1b require, so the second form is the one embedded. -/
def swap_output (reserve_in reserve_out amount_in fee_rate : Nat) :
    Except CurveError SwapOutput :=
  if reserve_in = 0 ∨ reserve_out = 0 then .error .InsufficientLiquidity
  else if U64_MOD ≤ amount_in * fee_rate then .error .Overflow
  else
    let fee := amount_in * fee_rate / 10000
    let net := amount_in - fee
    if U64_MOD ≤ reserve_out * net then .error .Overflow
    else
      let out := reserve_out * net / (reserve_in + net)
      if reserve_out ≤ out then .error .InsufficientLiquidity
      else .ok ⟨net, out, fee⟩

/-- Result of the curve's proportional-deposit computation: the amounts of
X and Y a depositor must pay in.  Modelled from the spec (§4.1a). -/
structure DepositAmounts where
  x : Nat
  y : Nat
  deriving DecidableEq, Repr

/-- Curve engine deposit computation
(`ConstantProduct::xy_deposit_amounts_from_l`).  Modelled from the spec:
the `constant_product_curve` crate is not part of `src/`.  Per §4.1a:
`amount_x = ceil(lp_amount * reserve_x / supply)` and likewise for y —
rounding always upward, in favor of the pool; fails with `Overflow` on
multiplication overflow (the u64 product `lp_amount * reserve`), and with
`ZeroAmount` if either computed amount is 0 while `lp_amount > 0`.  The
`precision` argument (the handlers pass 6) plays no role in the amounts. -/
def xy_deposit_amounts_from_l
    (reserve_x reserve_y supply lp_amount precision : Nat) :
    Except CurveError DepositAmounts :=
  if U64_MOD ≤ lp_amount * reserve_x ∨ U64_MOD ≤ lp_amount * reserve_y then
    .error .Overflow
  else
    let x := (lp_amount * reserve_x + (supply - 1)) / supply
    let y := (lp_amount * reserve_y + (supply - 1)) / supply
    if 0 < lp_amount ∧ (x = 0 ∨ y = 0) then .error .ZeroAmount
    else .ok ⟨x, y⟩

/-- `Deposit::deposit(lp_amount, max_x, max_y)` from
`contexts/deposit.rs`, embedded over a `PoolState` snapshot.  Mirrors the
source line by line: `require!(lp_amount > 0, InvalidAmount)`;
`require!(!config.locked, AMMLocked)`; bootstrap branch when lp supply and
both vault amounts are all zero takes `(max_x, max_y)` directly, otherwise
`xy_deposit_amounts_from_l` with any curve error mapped to
`InvalidAmount`; `require!(max_x >= x, InsufficientTokenX)`;
`require!(max_y >= y, InsufficientTokenY)`; then the two vault transfers
(user-signed) and the lp mint, in that order. -/
def deposit (s : PoolState) (lp_amount max_x max_y : Nat) :
    Except AmmError (List Effect) :=
  if lp_amount = 0 then .error .InvalidAmount
  else if s.config.locked then .error .AMMLocked
  else
    match
      (if s.lpSupply = 0 ∧ s.vaultX = 0 ∧ s.vaultY = 0 then
        Except.ok ⟨max_x, max_y⟩
      else
        match xy_deposit_amounts_from_l s.vaultX s.vaultY s.lpSupply lp_amount 6 with
        | .ok a => Except.ok a
        | .error _ => Except.error AmmError.InvalidAmount :
          Except AmmError DepositAmounts)
    with
    | .error e => .error e
    | .ok a =>
      if max_x < a.x then .error .InsufficientTokenX
      else if max_y < a.y then .error .InsufficientTokenY
      else
        .ok [.toVault .X .user a.x, .toVault .Y .user a.y, .mintLp lp_amount]

/-- The argument struct of `Swap::swap` (`SwapArgs` in `contexts/swap.rs`):
input side selector, input amount, minimum acceptable output. -/
structure SwapArgs where
  is_x : Bool
  amount : Nat
  min : Nat
  deriving DecidableEq, Repr

/-- `Swap::swap(args)` from `contexts/swap.rs`, embedded over a
`PoolState` snapshot.  The `require!`s mirror the source:
`amount > 0` (`InvalidAmount`), `locked == false` (`AMMLocked`), both
vault amounts `> 0` and lp supply `> 0` (`InsufficientBalance`).  The
curve call selects `(reserve_in, reserve_out)` by `args.is_x`
(`LiquidityPair::X` swaps X in for Y out); a curve error is mapped by
`AmmError::from`.  The degenerate-result checks mirror
`require_neq!(res.deposit, 0)` / `require_neq!(res.withdraw, 0)`
(`InvalidAmount`); the minimum-output bound `args.min`, which the source
hands to `curve.swap`, is modelled from the spec (§4.4 step 5) as the
check `amount_out < min → SlippageExceeded` after the degenerate checks.
On success the effects are `transfer_to_vault` (the input asset,
user-signed, for `res.deposit`) then `withdraw_from_vault` (the opposite
asset, pool-signed, for `res.withdraw`); per §4.4 step 6 the inbound
amount is `amount_in`. -/
def swap (s : PoolState) (args : SwapArgs) : Except AmmError (List Effect) :=
  if args.amount = 0 then .error .InvalidAmount
  else if s.config.locked then .error .AMMLocked
  else if ¬(0 < s.vaultX ∧ 0 < s.vaultY) then .error .InsufficientBalance
  else if s.lpSupply = 0 then .error .InsufficientBalance
  else
    let rin := if args.is_x then s.vaultX else s.vaultY
    let rout := if args.is_x then s.vaultY else s.vaultX
    match swap_output rin rout args.amount s.config.fee with
    | .error e => .error (.CurveErr e)
    | .ok res =>
      if res.amount_in_net = 0 then .error .InvalidAmount
      else if res.amount_out = 0 then .error .InvalidAmount
      else if res.amount_out < args.min then .error .SlippageExceeded
      else
        .ok [.toVault (if args.is_x then .X else .Y) .user args.amount,
             .fromVault (if args.is_x then .Y else .X) .pool res.amount_out]

/-- Balances after running a deposit: effects applied on success, balances
untouched on failure (in the source every `require!` precedes the first
CPI). -/
def depositBalances (b : Balances) (s : PoolState) (lp_amount max_x max_y : Nat) :
    Balances :=
  match deposit s lp_amount max_x max_y with
  | .ok es => applyEffects b es
  | .error _ => b

/-- Balances after running a swap: effects applied on success, balances
untouched on failure. -/
def swapBalances (b : Balances) (s : PoolState) (args : SwapArgs) : Balances :=
  match swap s args with
  | .ok es => applyEffects b es
  | .error _ => b

/-! ### Arithmetic helper lemmas -/

/-- Key inequality behind the constant-product invariant: subtracting the
floored output `rout * net / (rin + net)` from `rout` and rescaling by the
new input reserve never loses value. -/
theorem mul_sub_floor_div_ge (rin rout net : Nat)
    (h : rout * net / (rin + net) < rout) :
    rin * rout ≤ (rin + net) * (rout - rout * net / (rin + net)) := by
  set q := rout * net / (rin + net) with hq
  have h1 : q * (rin + net) ≤ rout * net := Nat.div_mul_le_self _ _
  obtain ⟨e, he⟩ := Nat.exists_eq_add_of_le h.le
  rw [he] at h1 ⊢
  rw [Nat.add_sub_cancel_left]
  nlinarith [h1]

/-- The expression `(a + (s - 1)) / s` rounds the quotient `a / s` up:
its product with `s` is at least `a`. -/
theorem ceil_div_mul_ge (a s : Nat) (hs : 0 < s) :
    a ≤ (a + (s - 1)) / s * s := by
  have h1 := Nat.div_add_mod (a + (s - 1)) s
  have h2 := Nat.mod_lt (a + (s - 1)) hs
  rw [Nat.mul_comm] at h1
  generalize (a + (s - 1)) / s * s = t at h1 ⊢
  omega

/-- The expression `(a + (s - 1)) / s` is the least upper rounding: one
less already falls short of covering `a`. -/
theorem ceil_div_pred_mul_lt (a s : Nat) (hs : 0 < s) (ha : 0 < a) :
    ((a + (s - 1)) / s - 1) * s < a := by
  have h1 : (a + (s - 1)) / s * s ≤ a + (s - 1) := Nat.div_mul_le_self _ _
  rw [Nat.sub_mul, Nat.one_mul]
  generalize (a + (s - 1)) / s * s = t at h1 ⊢
  omega

/-! ### Claim theorems -/

/-- C1: for every successful swap with positive reserves `reserve_in`,
`reserve_out`, input `amount_in > 0` and fee rate `f`, the
constant-product invariant never decreases:
`(reserve_in + amount_in_net) * (reserve_out - amount_out) ≥
 reserve_in * reserve_out`. -/
theorem swap_invariant_never_decreases (rin rout a f : Nat)
    (hrin : 0 < rin) (hrout : 0 < rout) (ha : 0 < a)
    (r : SwapOutput) (h : swap_output rin rout a f = .ok r) :
    rin * rout ≤ (rin + r.amount_in_net) * (rout - r.amount_out) := by
  simp only [swap_output] at h
  split at h
  · simp at h
  split at h
  · simp at h
  split at h
  · simp at h
  split at h
  · simp at h
  rename_i hout
  simp only [Except.ok.injEq] at h
  subst h
  dsimp only
  exact mul_sub_floor_div_ge rin rout _ (by omega)

/-- C1 witness: the invariant-growth theorem applied to the concrete swap
of 100 units into a 1000/1000 pool at 30 bps. -/
theorem swap_invariant_never_decreases_witness :
    1000 * 1000 ≤ (1000 + (⟨100, 90, 0⟩ : SwapOutput).amount_in_net) *
      (1000 - (⟨100, 90, 0⟩ : SwapOutput).amount_out) :=
  swap_invariant_never_decreases 1000 1000 100 30 (by decide) (by decide)
    (by decide) ⟨100, 90, 0⟩ rfl

/-- C2 counterexample: at `reserve_in = reserve_out = 1000`,
`fee_rate = 30`, `amount_in = 100` the curve yields `amount_out = 90`
(the value the claim itself asserts), but the claim's formula
`reserve_out - floor(reserve_in * reserve_out / (reserve_in + net))`
evaluates to `1000 - floor(1000000 / 1100) = 91`, so the claim's two
parts contradict each other and the formula part fails on the code. -/
theorem swap_output_floor_formula_cex :
    swap_output 1000 1000 100 30 = .ok ⟨100, 90, 0⟩ ∧
    1000 - 1000 * 1000 / (1000 + 100) ≠ 90 := by
  constructor
  · rfl
  · decide

/-- C2 amended: for every swap with positive reserves, `amount_in > 0`
and fee rate in basis points, the computed amounts are exactly
`fee = floor(amount_in * fee_rate / 10000)`,
`amount_in_net = amount_in - fee`, and
`amount_out = floor(reserve_out * amount_in_net /
(reserve_in + amount_in_net))` (not
`reserve_out - floor(reserve_in * reserve_out / (reserve_in + net))`,
which differs under integer division); in particular the concrete case
yields `fee = 0` and `amount_out = 90`. -/
theorem swap_output_formulas (rin rout a f : Nat)
    (hrin : 0 < rin) (hrout : 0 < rout) (ha : 0 < a)
    (r : SwapOutput) (h : swap_output rin rout a f = .ok r) :
    r.fee = a * f / 10000 ∧
    r.amount_in_net = a - a * f / 10000 ∧
    r.amount_out = rout * (a - a * f / 10000) / (rin + (a - a * f / 10000)) := by
  simp only [swap_output] at h
  split at h
  · simp at h
  split at h
  · simp at h
  split at h
  · simp at h
  split at h
  · simp at h
  simp only [Except.ok.injEq] at h
  subst h
  exact ⟨rfl, rfl, rfl⟩

/-- C2 witness: the exact-formula theorem applied to the concrete swap of
the claim (reserves 1000/1000, 30 bps, 100 in), giving fee 0 and
output 90. -/
theorem swap_output_formulas_witness :
    (⟨100, 90, 0⟩ : SwapOutput).fee = 100 * 30 / 10000 ∧
    (⟨100, 90, 0⟩ : SwapOutput).amount_in_net = 100 - 100 * 30 / 10000 ∧
    (⟨100, 90, 0⟩ : SwapOutput).amount_out =
      1000 * (100 - 100 * 30 / 10000) / (1000 + (100 - 100 * 30 / 10000)) :=
  swap_output_formulas 1000 1000 100 30 (by decide) (by decide) (by decide)
    ⟨100, 90, 0⟩ rfl

/-- C3: for every non-bootstrap deposit (`share_supply > 0`) with
`requested_shares > 0`, the required amounts are
`amount_x = ceil(requested_shares * reserve_x / share_supply)` and
`amount_y = ceil(requested_shares * reserve_y / share_supply)` — stated
as the exact characterization of the ceiling: the returned amount covers
the proportional value (rounding upward, in favor of the pool) and one
unit less would not. -/
theorem deposit_amounts_round_up (rx ry supply lp p : Nat)
    (hs : 0 < supply) (hlp : 0 < lp)
    (r : DepositAmounts)
    (h : xy_deposit_amounts_from_l rx ry supply lp p = .ok r) :
    (lp * rx ≤ r.x * supply ∧ (r.x - 1) * supply < lp * rx) ∧
    (lp * ry ≤ r.y * supply ∧ (r.y - 1) * supply < lp * ry) := by
  simp only [xy_deposit_amounts_from_l] at h
  split at h
  · simp at h
  split at h
  · simp at h
  rename_i hz
  simp only [Except.ok.injEq] at h
  subst h
  dsimp only
  rw [not_and_or, not_or] at hz
  rcases hz with hz | hz
  · omega
  have hx0 : 0 < lp * rx := by
    rcases Nat.eq_zero_or_pos (lp * rx) with h0 | h0
    · exfalso
      apply hz.1
      rw [h0, Nat.zero_add]
      exact Nat.div_eq_of_lt (by omega)
    · exact h0
  have hy0 : 0 < lp * ry := by
    rcases Nat.eq_zero_or_pos (lp * ry) with h0 | h0
    · exfalso
      apply hz.2
      rw [h0, Nat.zero_add]
      exact Nat.div_eq_of_lt (by omega)
    · exact h0
  exact ⟨⟨ceil_div_mul_ge _ _ hs, ceil_div_pred_mul_lt _ _ hs hx0⟩,
         ⟨ceil_div_mul_ge _ _ hs, ceil_div_pred_mul_lt _ _ hs hy0⟩⟩

/-- C3 witness: the ceiling characterization applied to the concrete
proportional deposit of 50 shares into a 100/100 pool with supply 100. -/
theorem deposit_amounts_round_up_witness :
    (50 * 100 ≤ (⟨50, 50⟩ : DepositAmounts).x * 100 ∧
     ((⟨50, 50⟩ : DepositAmounts).x - 1) * 100 < 50 * 100) ∧
    (50 * 100 ≤ (⟨50, 50⟩ : DepositAmounts).y * 100 ∧
     ((⟨50, 50⟩ : DepositAmounts).y - 1) * 100 < 50 * 100) :=
  deposit_amounts_round_up 100 100 100 50 6 (by decide) (by decide)
    ⟨50, 50⟩ rfl

/-- C4 counterexample: a deposit call with `requested_shares = 0` on a
locked pool fails with `InvalidAmount`, not the locked-pool error
(`AMMLocked`, the spec's `PoolLocked`), because the zero-amount check
runs first; so not every call on a locked pool fails with the
locked-pool error. -/
theorem locked_pool_error_cex :
    deposit ⟨⟨true, 30⟩, 0, 0, 0⟩ 0 5 5 = .error .InvalidAmount ∧
    AmmError.InvalidAmount ≠ AmmError.AMMLocked :=
  ⟨rfl, by decide⟩

/-- C4 amended: every deposit call with positive `requested_shares` and
every swap call with positive `amount_in` made while the pool's locked
flag is set fails with the locked-pool error (`AMMLocked`, the spec's
`PoolLocked`) and performs zero side effects: balances are unchanged. -/
theorem locked_pool_rejects (s : PoolState) (b : Balances)
    (lp mx my : Nat) (args : SwapArgs)
    (hl : s.config.locked = true) (hlp : 0 < lp) (ha : 0 < args.amount) :
    (deposit s lp mx my = .error .AMMLocked ∧
     depositBalances b s lp mx my = b) ∧
    (swap s args = .error .AMMLocked ∧ swapBalances b s args = b) := by
  have hd : deposit s lp mx my = .error .AMMLocked := by
    simp [deposit, hl, Nat.pos_iff_ne_zero.mp hlp]
  have hw : swap s args = .error .AMMLocked := by
    simp [swap, hl, Nat.pos_iff_ne_zero.mp ha]
  exact ⟨⟨hd, by simp [depositBalances, hd]⟩, ⟨hw, by simp [swapBalances, hw]⟩⟩

/-- C4 witness: the amended locked-pool theorem applied to a concrete
locked pool, a deposit of 5 shares and a swap of 5 units. -/
theorem locked_pool_rejects_witness :
    (deposit ⟨⟨true, 30⟩, 10, 10, 10⟩ 5 9 9 = .error .AMMLocked ∧
     depositBalances ⟨10, 10, 9, 9, 0, 10⟩ ⟨⟨true, 30⟩, 10, 10, 10⟩ 5 9 9 =
       ⟨10, 10, 9, 9, 0, 10⟩) ∧
    (swap ⟨⟨true, 30⟩, 10, 10, 10⟩ ⟨true, 5, 0⟩ = .error .AMMLocked ∧
     swapBalances ⟨10, 10, 9, 9, 0, 10⟩ ⟨⟨true, 30⟩, 10, 10, 10⟩ ⟨true, 5, 0⟩ =
       ⟨10, 10, 9, 9, 0, 10⟩) :=
  locked_pool_rejects ⟨⟨true, 30⟩, 10, 10, 10⟩ ⟨10, 10, 9, 9, 0, 10⟩
    5 9 9 ⟨true, 5, 0⟩ rfl (by decide) (by decide)

/-- C5: every deposit into an empty pool (lp supply 0 and both vault
amounts 0) with `requested_shares > 0` and bounds `(max_x, max_y)`
deposits exactly `(max_x, max_y)` — the bootstrap branch, not the curve —
so starting from zero balances the vaults end at exactly those amounts
and the lp supply at exactly the requested share count. -/
theorem bootstrap_deposit_exact (s : PoolState) (b : Balances)
    (lp mx my : Nat)
    (hl : s.config.locked = false) (hsup : s.lpSupply = 0)
    (hvx : s.vaultX = 0) (hvy : s.vaultY = 0) (hlp : 0 < lp)
    (hbx : b.vaultX = 0) (hby : b.vaultY = 0) (hbl : b.lpSupply = 0) :
    deposit s lp mx my =
      .ok [.toVault .X .user mx, .toVault .Y .user my, .mintLp lp] ∧
    (depositBalances b s lp mx my).vaultX = mx ∧
    (depositBalances b s lp mx my).vaultY = my ∧
    (depositBalances b s lp mx my).lpSupply = lp := by
  have hd : deposit s lp mx my =
      .ok [.toVault .X .user mx, .toVault .Y .user my, .mintLp lp] := by
    simp [deposit, hl, hsup, hvx, hvy, Nat.pos_iff_ne_zero.mp hlp]
  refine ⟨hd, ?_, ?_, ?_⟩ <;>
    simp [depositBalances, hd, applyEffects, applyEffect, hbx, hby, hbl]

/-- C5 witness: the bootstrap theorem applied to the spec's concrete
example, depositing `(1000, 2000)` for 77 shares into an empty pool. -/
theorem bootstrap_deposit_exact_witness :
    deposit ⟨⟨false, 30⟩, 0, 0, 0⟩ 77 1000 2000 =
      .ok [.toVault .X .user 1000, .toVault .Y .user 2000, .mintLp 77] ∧
    (depositBalances ⟨0, 0, 1000, 2000, 0, 0⟩ ⟨⟨false, 30⟩, 0, 0, 0⟩
      77 1000 2000).vaultX = 1000 ∧
    (depositBalances ⟨0, 0, 1000, 2000, 0, 0⟩ ⟨⟨false, 30⟩, 0, 0, 0⟩
      77 1000 2000).vaultY = 2000 ∧
    (depositBalances ⟨0, 0, 1000, 2000, 0, 0⟩ ⟨⟨false, 30⟩, 0, 0, 0⟩
      77 1000 2000).lpSupply = 77 :=
  bootstrap_deposit_exact ⟨⟨false, 30⟩, 0, 0, 0⟩ ⟨0, 0, 1000, 2000, 0, 0⟩
    77 1000 2000 rfl rfl rfl rfl (by decide) rfl rfl rfl

/-- C6 counterexample: a non-bootstrap deposit whose product
`requested_shares * reserve_x` exceeds the u64 range fails, but with
`InvalidAmount`, not the `Overflow` error: `Deposit::deposit` maps every
curve error to `InvalidAmount` (`.map_err(|_| AmmError::InvalidAmount)`
in `contexts/deposit.rs`). -/
theorem deposit_overflow_error_cex :
    deposit ⟨⟨false, 30⟩, 2 ^ 62, 2 ^ 62, 2⟩ 8 5 5 = .error .InvalidAmount ∧
    AmmError.InvalidAmount ≠ AmmError.CurveErr .Overflow :=
  ⟨rfl, by decide⟩

/-- C6 amended: for every non-bootstrap deposit whose multiplication
`requested_shares * reserve` overflows the u64 range, the curve engine
fails with `CurveError::Overflow`, and the deposit operation fails hard
with `InvalidAmount` (the handler maps every curve error, `Overflow`
included, to `InvalidAmount`) with zero side effects; the overflow is
never silently wrapped or saturated. -/
theorem deposit_overflow_hard_failure (s : PoolState) (b : Balances)
    (lp mx my : Nat)
    (hl : s.config.locked = false) (hlp : 0 < lp)
    (hnb : ¬(s.lpSupply = 0 ∧ s.vaultX = 0 ∧ s.vaultY = 0))
    (hov : U64_MOD ≤ lp * s.vaultX ∨ U64_MOD ≤ lp * s.vaultY) :
    xy_deposit_amounts_from_l s.vaultX s.vaultY s.lpSupply lp 6 =
      .error .Overflow ∧
    deposit s lp mx my = .error .InvalidAmount ∧
    depositBalances b s lp mx my = b := by
  have hc : xy_deposit_amounts_from_l s.vaultX s.vaultY s.lpSupply lp 6 =
      .error .Overflow := by
    simp only [xy_deposit_amounts_from_l]
    rw [if_pos hov]
  have hd : deposit s lp mx my = .error .InvalidAmount := by
    simp [deposit, hl, Nat.pos_iff_ne_zero.mp hlp, hnb, hc]
  exact ⟨hc, hd, by simp [depositBalances, hd]⟩

/-- C6 witness: the amended overflow theorem applied to a concrete pool
with reserves `2 ^ 62` and supply 2, depositing 8 shares so that
`8 * 2 ^ 62 = 2 ^ 65` overflows u64. -/
theorem deposit_overflow_hard_failure_witness :
    xy_deposit_amounts_from_l (2 ^ 62) (2 ^ 62) 2 8 6 = .error .Overflow ∧
    deposit ⟨⟨false, 30⟩, 2 ^ 62, 2 ^ 62, 2⟩ 8 5 5 = .error .InvalidAmount ∧
    depositBalances ⟨2 ^ 62, 2 ^ 62, 5, 5, 0, 2⟩
      ⟨⟨false, 30⟩, 2 ^ 62, 2 ^ 62, 2⟩ 8 5 5 = ⟨2 ^ 62, 2 ^ 62, 5, 5, 0, 2⟩ :=
  deposit_overflow_hard_failure ⟨⟨false, 30⟩, 2 ^ 62, 2 ^ 62, 2⟩
    ⟨2 ^ 62, 2 ^ 62, 5, 5, 0, 2⟩ 8 5 5 rfl (by decide) (by decide)
    (Or.inl (by norm_num [U64_MOD]))

/-- C7: every swap whose curve computation yields `amount_out = 0` or
`amount_in_net = 0` fails with `InvalidAmount` and performs no transfer
(balances unchanged): the degenerate trade is rejected, never silently
accepted. -/
theorem swap_degenerate_rejected (s : PoolState) (b : Balances)
    (args : SwapArgs)
    (ha : 0 < args.amount) (hl : s.config.locked = false)
    (hx : 0 < s.vaultX) (hy : 0 < s.vaultY) (hsup : 0 < s.lpSupply)
    (r : SwapOutput)
    (h : swap_output (if args.is_x then s.vaultX else s.vaultY)
      (if args.is_x then s.vaultY else s.vaultX) args.amount s.config.fee =
      .ok r)
    (hdeg : r.amount_out = 0 ∨ r.amount_in_net = 0) :
    swap s args = .error .InvalidAmount ∧ swapBalances b s args = b := by
  have ha' := Nat.pos_iff_ne_zero.mp ha
  have hsup' := Nat.pos_iff_ne_zero.mp hsup
  have hw : swap s args = .error .InvalidAmount := by
    rcases hdeg with h0 | h0
    · by_cases hnet : r.amount_in_net = 0
      · simp [swap, ha', hl, hx, hy, hsup', h, hnet]
      · simp [swap, ha', hl, hx, hy, hsup', h, hnet, h0]
    · simp [swap, ha', hl, hx, hy, hsup', h, h0]
  exact ⟨hw, by simp [swapBalances, hw]⟩

/-- C7 witness: the degenerate-trade theorem applied to a 10/10 pool with
a 100% fee rate, where 5 units in net to 0 and the output is 0. -/
theorem swap_degenerate_rejected_witness :
    swap ⟨⟨false, 10000⟩, 10, 10, 10⟩ ⟨true, 5, 0⟩ = .error .InvalidAmount ∧
    swapBalances ⟨10, 10, 9, 9, 0, 10⟩ ⟨⟨false, 10000⟩, 10, 10, 10⟩
      ⟨true, 5, 0⟩ = ⟨10, 10, 9, 9, 0, 10⟩ :=
  swap_degenerate_rejected ⟨⟨false, 10000⟩, 10, 10, 10⟩ ⟨10, 10, 9, 9, 0, 10⟩
    ⟨true, 5, 0⟩ (by decide) rfl (by decide) (by decide) (by decide)
    ⟨0, 0, 5⟩ rfl (by decide)

/-- C8: every deposit whose curve-computed amount `x` exceeds
`max_amount_x` fails with `InsufficientTokenX` (the spec's
`SlippageExceededX`) before any transfer; likewise a computed `y`
exceeding `max_amount_y` fails with `InsufficientTokenY` (the spec's
`SlippageExceededY`); balances stay unchanged. -/
theorem deposit_slippage_rejected (s : PoolState) (b : Balances)
    (lp mx my : Nat)
    (hl : s.config.locked = false) (hlp : 0 < lp)
    (hnb : ¬(s.lpSupply = 0 ∧ s.vaultX = 0 ∧ s.vaultY = 0))
    (r : DepositAmounts)
    (h : xy_deposit_amounts_from_l s.vaultX s.vaultY s.lpSupply lp 6 = .ok r)
    (hslip : mx < r.x ∨ my < r.y) :
    deposit s lp mx my =
      .error (if mx < r.x then .InsufficientTokenX else .InsufficientTokenY) ∧
    depositBalances b s lp mx my = b := by
  have hlp' := Nat.pos_iff_ne_zero.mp hlp
  have hd : deposit s lp mx my =
      .error (if mx < r.x then .InsufficientTokenX else .InsufficientTokenY) := by
    by_cases hxc : mx < r.x
    · simp [deposit, hlp', hl, hnb, h, hxc]
    · have hyc : my < r.y := by
        rcases hslip with hs | hs
        · exact absurd hs hxc
        · exact hs
      simp [deposit, hlp', hl, hnb, h, hxc, hyc]
  exact ⟨hd, by simp [depositBalances, hd]⟩

/-- C8 witness: the slippage theorem applied to a 100/100 pool with
supply 100, requesting 50 shares (computed amounts 50/50) with
`max_amount_x = 10`, which is exceeded. -/
theorem deposit_slippage_rejected_witness :
    deposit ⟨⟨false, 30⟩, 100, 100, 100⟩ 50 10 1000 =
      .error (if 10 < (⟨50, 50⟩ : DepositAmounts).x then .InsufficientTokenX
              else .InsufficientTokenY) ∧
    depositBalances ⟨100, 100, 60, 60, 0, 100⟩ ⟨⟨false, 30⟩, 100, 100, 100⟩
      50 10 1000 = ⟨100, 100, 60, 60, 0, 100⟩ :=
  deposit_slippage_rejected ⟨⟨false, 30⟩, 100, 100, 100⟩
    ⟨100, 100, 60, 60, 0, 100⟩ 50 10 1000 rfl (by decide) (by decide)
    ⟨50, 50⟩ rfl (Or.inl (by decide))

/-- C9: every successful swap produces exactly two transfers:
`amount_in` of the input asset (X when `is_x` is true, Y otherwise) from
the trader into that asset's vault signed by the trader, followed by the
curve's `amount_out` of the opposite asset from its vault to the trader
signed by the pool's authority. -/
theorem swap_effects_exact (s : PoolState) (args : SwapArgs)
    (es : List Effect) (r : SwapOutput)
    (h : swap s args = .ok es)
    (hq : swap_output (if args.is_x then s.vaultX else s.vaultY)
      (if args.is_x then s.vaultY else s.vaultX) args.amount s.config.fee =
      .ok r) :
    es = [.toVault (if args.is_x then .X else .Y) .user args.amount,
          .fromVault (if args.is_x then .Y else .X) .pool r.amount_out] := by
  simp only [swap] at h
  split at h
  · simp at h
  split at h
  · simp at h
  split at h
  · simp at h
  split at h
  · simp at h
  rw [hq] at h
  split at h
  · simp at h
  rename_i res heq
  split at h
  · simp at h
  split at h
  · simp at h
  split at h
  · simp at h
  simp only [Except.ok.injEq] at h heq
  subst heq
  exact h.symm

/-- C9 witness: the effect-shape theorem applied to the concrete swap of
100 X into a 1000/1000 pool at 30 bps, which moves 100 X in and 90 Y
out. -/
theorem swap_effects_exact_witness :
    ([.toVault .X .user 100, .fromVault .Y .pool 90] : List Effect) =
      [.toVault (if (true : Bool) then .X else .Y) .user 100,
       .fromVault (if (true : Bool) then .Y else .X) .pool
         (⟨100, 90, 0⟩ : SwapOutput).amount_out] :=
  swap_effects_exact ⟨⟨false, 30⟩, 1000, 1000, 1000⟩ ⟨true, 100, 0⟩
    [.toVault .X .user 100, .fromVault .Y .pool 90] ⟨100, 90, 0⟩ rfl rfl

/-- C10: in both deposit and swap the zero-amount check precedes the
lock check: a call with requested amount 0 on a locked pool fails with
`InvalidAmount`, not the locked-pool error. -/
theorem zero_amount_before_lock_check (s : PoolState) (mx my mn : Nat)
    (ix : Bool) (hl : s.config.locked = true) :
    deposit s 0 mx my = .error .InvalidAmount ∧
    swap s ⟨ix, 0, mn⟩ = .error .InvalidAmount := by
  constructor
  · simp [deposit]
  · simp [swap]

/-- C10 witness: the check-order theorem applied to a concrete locked
pool. -/
theorem zero_amount_before_lock_check_witness :
    deposit ⟨⟨true, 30⟩, 10, 10, 10⟩ 0 5 5 = .error .InvalidAmount ∧
    swap ⟨⟨true, 30⟩, 10, 10, 10⟩ ⟨false, 0, 0⟩ = .error .InvalidAmount :=
  zero_amount_before_lock_check ⟨⟨true, 30⟩, 10, 10, 10⟩ 5 5 0 false rfl

end AmmDemo
